import Mathlib

/-!
Shallow embedding of the echo runtime agent (src/runtime-agent.ts).

The agent is a single-file Deno process that connects to an event-sourced
store, registers a kernel session, and coordinates work through three
reactive subscriptions:

* assigned-work subscription: deduplicates queue entries through the
  in-process set processedExecutions and invokes processExecution for each
  new entry;
* pending-work subscription: attempts to claim at most one pending entry
  per refresh for this session;
* active-kernels subscription: monitoring only.

Commits are modelled as values of an Event type; the store's tables are
passed in as plain lists; wall-clock timestamps are Int parameters
(milliseconds, as produced by Date.getTime in the source).
-/

namespace EchoAgent

/-- Row of the executionQueue table, as consumed by the agent. -/
structure QueueEntry where
  id : String
  cellId : String
  status : String
  deriving DecidableEq, Repr

/-- Row of the cells table: identifier, cell type and nullable source. -/
structure Cell where
  id : String
  cellType : String
  source : Option String
  deriving DecidableEq, Repr

/-- Row of the kernelSessions table as seen through the active-kernels query. -/
structure KernelSession where
  sessionId : String
  isActive : Bool
  deriving DecidableEq, Repr

/-- Events the agent commits to the store, mirroring the payloads built in
the source. -/
inductive Event where
  | kernelSessionStarted (sessionId kernelId kernelType : String)
      (canExecuteCode canExecuteSql canExecuteAi : Bool)
  | kernelSessionHeartbeat (sessionId status : String) (timestamp : Int)
  | kernelSessionTerminated (sessionId reason : String)
  | executionAssigned (queueId kernelSessionId : String)
  | executionStarted (queueId cellId kernelSessionId : String) (startedAt : Int)
  | cellOutputsCleared (cellId clearedBy : String)
  | cellOutputAdded (id cellId outputType data : String) (position : Int)
  | executionCompleted (queueId cellId status : String) (error : Option String)
      (completedAt : Int) (executionDurationMs : Int)
  deriving DecidableEq, Repr

/-- JavaScript `s || ""`: null, undefined and the empty string all collapse
to the empty string. -/
def jsOrEmpty : Option String → String
  | none => ""
  | some s => if s.isEmpty then "" else s

/-- Query `tables.cells.select().where({ id: cellId })` followed by `cells[0]`. -/
def lookupCell (cells : List Cell) (cellId : String) : Option Cell :=
  (cells.filter (fun c => c.id == cellId)).head?

/-- The outputData value built in processExecution: type tag and text/plain
payload, depending on the cell type ("ai" gets the echo-bot message, every
other type gets the source echoed back). -/
def outputDataFor (cell : Cell) : String × String :=
  if cell.cellType == "ai" then
    ("execute_result", "Beep boop. You said \"" ++ jsOrEmpty cell.source ++ "\"")
  else
    ("execute_result", jsOrEmpty cell.source)

/-- Commits performed by one invocation of processExecution for queue entry
`q`. `startTime` is the timestamp captured before any work, `endTime` the
timestamp taken when the completion event is built. A missing cell throws,
and the catch block commits a single "error" completion; otherwise the four
commits of the happy path happen in source order. -/
def processExecution (cells : List Cell) (sessionId kernelId outputId : String)
    (startTime endTime : Int) (q : QueueEntry) : List Event :=
  match lookupCell cells q.cellId with
  | none =>
      [Event.executionCompleted q.id q.cellId "error"
        (some ("Cell " ++ q.cellId ++ " not found")) endTime (endTime - startTime)]
  | some cell =>
      [Event.executionStarted q.id q.cellId sessionId startTime,
       Event.cellOutputsCleared cell.id ("kernel-" ++ kernelId),
       Event.cellOutputAdded outputId cell.id (outputDataFor cell).1
         (outputDataFor cell).2 0,
       Event.executionCompleted q.id q.cellId "success" none endTime
         (endTime - startTime)]

/-- Payloads of the cellOutputAdded events in a commit list. -/
def outputPayloads (evs : List Event) : List String :=
  evs.filterMap (fun e => match e with
    | Event.cellOutputAdded _ _ _ d _ => some d
    | _ => none)

/-- Check whether an event is the executionCompleted event of queue entry `x`. -/
def isCompletedFor (x : String) : Event → Bool
  | Event.executionCompleted qid _ _ _ _ _ => qid == x
  | _ => false

/-- Number of executionCompleted events for queue entry `x` in a commit list. -/
def countCompleted (x : String) (evs : List Event) : Nat :=
  evs.countP (isCompletedFor x)

/-- One pass of the loop body of the assigned-work subscription callback:
entries whose id is already in the processedExecutions ledger are skipped;
any other entry has its id added to the ledger immediately (synchronously,
before processExecution is awaited) and is handed to processExecution.
Returns the updated ledger and the entries actually handed over, in order. -/
def runAssignedBatch : List String → List QueueEntry → List String × List QueueEntry
  | ledger, [] => (ledger, [])
  | ledger, q :: rest =>
    if q.id ∈ ledger then runAssignedBatch ledger rest
    else
      let r := runAssignedBatch (q.id :: ledger) rest
      (r.1, q :: r.2)

/-- A whole run of the assigned-work subscription: each notification carries
the isShuttingDown flag observed at its start (the callback returns at once
when it is set) and the entries of the refreshed assigned view. The ledger
persists across notifications; the invoked entries are concatenated in
order. -/
def runNotifications :
    List String → List (Bool × List QueueEntry) → List String × List QueueEntry
  | ledger, [] => (ledger, [])
  | ledger, (true, _) :: rest => runNotifications ledger rest
  | ledger, (false, b) :: rest =>
    let r := runAssignedBatch ledger b
    let r2 := runNotifications r.1 rest
    (r2.1, r.2 ++ r2.2)

/-- Commit-level view of `runAssignedBatch`: each invoked entry contributes
the commits of its processExecution run. The output id and the two
timestamps of an invocation are drawn from per-entry oracles, since each
invocation generates a fresh UUID and reads the clock. -/
def runAssignedBatchE (cells : List Cell) (sessionId kernelId : String)
    (outputId : String → String) (startT endT : String → Int) :
    List String → List QueueEntry → List String × List Event
  | ledger, [] => (ledger, [])
  | ledger, q :: rest =>
    if q.id ∈ ledger then
      runAssignedBatchE cells sessionId kernelId outputId startT endT ledger rest
    else
      let evs := processExecution cells sessionId kernelId (outputId q.id)
        (startT q.id) (endT q.id) q
      let r := runAssignedBatchE cells sessionId kernelId outputId startT endT
        (q.id :: ledger) rest
      (r.1, evs ++ r.2)

/-- Commit-level view of a whole run of the assigned-work subscription. -/
def runNotificationsE (cells : List Cell) (sessionId kernelId : String)
    (outputId : String → String) (startT endT : String → Int) :
    List String → List (Bool × List QueueEntry) → List String × List Event
  | ledger, [] => (ledger, [])
  | ledger, (true, _) :: rest =>
    runNotificationsE cells sessionId kernelId outputId startT endT ledger rest
  | ledger, (false, b) :: rest =>
    let r := runAssignedBatchE cells sessionId kernelId outputId startT endT ledger b
    let r2 := runNotificationsE cells sessionId kernelId outputId startT endT r.1 rest
    (r2.1, r.2 ++ r2.2)

/-- Commits contributed by a list of invoked entries, one processExecution
run each, in invocation order. -/
def eventsOfInvoked (cells : List Cell) (sessionId kernelId : String)
    (outputId : String → String) (startT endT : String → Int) :
    List QueueEntry → List Event
  | [] => []
  | q :: rest =>
    processExecution cells sessionId kernelId (outputId q.id) (startT q.id)
      (endT q.id) q ++
    eventsOfInvoked cells sessionId kernelId outputId startT endT rest

/-- Outcome of one pending-work subscription callback: the assignment
commits attempted, the subset the log accepted, and any error surfaced to
the user. -/
structure PendingOutcome where
  attempts : List Event
  accepted : List Event
  surfaced : Option String
  deriving DecidableEq, Repr

/-- One pending-work subscription callback. `accept` is the log's verdict
on a commit (optimistic concurrency). The callback returns at once while
shutting down; otherwise it queries the active kernels, bails out unless
this session is among them, and tries to claim the head of the pending
sequence when that head is still pending. The commit attempt sits in a
try/catch whose catch body is empty, so a rejected commit is attempted but
not accepted, nothing is surfaced, and no retry happens. -/
def pendingOnUpdateRun (accept : Event → Bool) (shuttingDown : Bool)
    (sessionId : String) (activeKernels : List KernelSession)
    (entries : List QueueEntry) : PendingOutcome :=
  if shuttingDown then ⟨[], [], none⟩
  else
    match activeKernels.find? (fun k => k.sessionId == sessionId) with
    | none => ⟨[], [], none⟩
    | some _ =>
      match entries.head? with
      | none => ⟨[], [], none⟩
      | some firstPending =>
        if firstPending.status == "pending" then
          if accept (Event.executionAssigned firstPending.id sessionId) then
            ⟨[Event.executionAssigned firstPending.id sessionId],
             [Event.executionAssigned firstPending.id sessionId], none⟩
          else ⟨[Event.executionAssigned firstPending.id sessionId], [], none⟩
        else ⟨[], [], none⟩

/-- Process-local state touched by the shutdown handler. -/
structure AgentState where
  isShuttingDown : Bool
  heartbeatActive : Bool
  assignedSub : Bool
  pendingSub : Bool
  activeSub : Bool
  storeOpen : Bool
  exited : Option Nat
  deriving DecidableEq, Repr

/-- Observable steps of the teardown sequence. -/
inductive TeardownStep where
  | stopHeartbeat
  | unsubAssigned
  | unsubPending
  | unsubActive
  | commitTerminated (sessionId reason : String)
  | logTerminateFailed
  | closeStore
  | exitProcess (code : Nat)
  deriving DecidableEq, Repr

/-- The shutdown handler. The guard flag makes a second invocation return
immediately with no steps. Otherwise it stops the heartbeat, releases the
three subscriptions, attempts the kernelSessionTerminated commit (a failure
is logged and does not stop the sequence, `commitOk` being the store's
verdict), closes the store and exits with status 0. -/
def shutdown (commitOk : Bool) (sessionId : String) (s : AgentState) :
    AgentState × List TeardownStep :=
  if s.isShuttingDown then (s, [])
  else
    ({ s with
        isShuttingDown := true
        heartbeatActive := false
        assignedSub := false
        pendingSub := false
        activeSub := false
        storeOpen := false
        exited := some 0 },
     [TeardownStep.stopHeartbeat, TeardownStep.unsubAssigned,
      TeardownStep.unsubPending, TeardownStep.unsubActive,
      TeardownStep.commitTerminated sessionId "shutdown"] ++
     (if commitOk then [] else [TeardownStep.logTerminateFailed]) ++
     [TeardownStep.closeStore, TeardownStep.exitProcess 0])

/-- Repeated invocations of the shutdown trigger, collecting every step
performed. -/
def shutdownTimes (commitOk : Bool) (sessionId : String) :
    Nat → AgentState → AgentState × List TeardownStep
  | 0, s => (s, [])
  | n + 1, s =>
    let r := shutdown commitOk sessionId s
    let r2 := shutdownTimes commitOk sessionId n r.1
    (r2.1, r.2 ++ r2.2)

/-- JavaScript truthiness test used on AUTH_TOKEN and NOTEBOOK_ID: null,
undefined and the empty string are all falsy. -/
def falsyConfig : Option String → Bool
  | none => true
  | some s => s.isEmpty

/-- Result of the startup phase: either the process exited with a status
code before reaching the subscription setup, or it is running with the
events committed so far. -/
inductive StartupResult where
  | exited (code : Nat) (events : List Event)
  | running (events : List Event)
  deriving DecidableEq, Repr

/-- The kernelSessionStarted registration event, with the capability set
declared in the source. -/
def registrationEvent (sessionId kernelId : String) : Event :=
  Event.kernelSessionStarted sessionId kernelId "echo" true false true

/-- The immediate kernelSessionHeartbeat commit that follows registration. -/
def startupHeartbeatEvent (sessionId : String) (t : Int) : Event :=
  Event.kernelSessionHeartbeat sessionId "ready" t

/-- The startup phase: validate AUTH_TOKEN and NOTEBOOK_ID (exiting with
status 1 when either is falsy), then commit registration and an immediate
heartbeat inside a try block whose catch rethrows, so a failed commit
escapes as an uncaught error and the process dies with a non-zero status
before any subscription exists. On success the process goes on running
with exactly those two events committed. -/
def startup (authToken notebookId : Option String) (sessionId kernelId : String)
    (hbTime : Int) (registrationOk heartbeatOk : Bool) : StartupResult :=
  if falsyConfig authToken then StartupResult.exited 1 []
  else if falsyConfig notebookId then StartupResult.exited 1 []
  else if !registrationOk then StartupResult.exited 1 []
  else if !heartbeatOk then StartupResult.exited 1 [registrationEvent sessionId kernelId]
  else StartupResult.running
    [registrationEvent sessionId kernelId, startupHeartbeatEvent sessionId hbTime]

/-- Check for events that claim or execute work. -/
def isWorkEvent : Event → Bool
  | Event.executionAssigned _ _ => true
  | Event.executionStarted _ _ _ _ => true
  | Event.cellOutputsCleared _ _ => true
  | Event.cellOutputAdded _ _ _ _ _ => true
  | Event.executionCompleted _ _ _ _ _ _ => true
  | _ => false

/-! Ledger lemmas: how runAssignedBatch and runNotifications grow the
processedExecutions set and which entries they hand to processExecution. -/

theorem mem_ledger_runAssignedBatch (es : List QueueEntry) :
    ∀ (L : List String) (x : String),
      x ∈ (runAssignedBatch L es).1 ↔
        x ∈ L ∨ x ∈ (runAssignedBatch L es).2.map (fun q => q.id) := by
  induction es with
  | nil => intro L x; simp [runAssignedBatch]
  | cons q rest ih =>
    intro L x
    by_cases h : q.id ∈ L
    · simpa [runAssignedBatch, h] using ih L x
    · simp only [runAssignedBatch, if_neg h, List.map_cons, List.mem_cons]
      rw [ih (q.id :: L) x]
      simp only [List.mem_cons]
      tauto

theorem count_invoked_of_mem_ledger (es : List QueueEntry) :
    ∀ (L : List String) (x : String), x ∈ L →
      List.count x ((runAssignedBatch L es).2.map (fun q => q.id)) = 0 := by
  induction es with
  | nil => intro L x _; simp [runAssignedBatch]
  | cons q rest ih =>
    intro L x hx
    by_cases h : q.id ∈ L
    · simpa [runAssignedBatch, h] using ih L x hx
    · have hne : q.id ≠ x := fun he => h (he ▸ hx)
      simp only [runAssignedBatch, if_neg h, List.map_cons, List.count_cons]
      rw [ih (q.id :: L) x (List.mem_cons_of_mem _ hx)]
      simp [hne]

theorem count_invoked_le_one (es : List QueueEntry) :
    ∀ (L : List String) (x : String),
      List.count x ((runAssignedBatch L es).2.map (fun q => q.id)) ≤ 1 := by
  induction es with
  | nil => intro L x; simp [runAssignedBatch]
  | cons q rest ih =>
    intro L x
    by_cases h : q.id ∈ L
    · simpa [runAssignedBatch, h] using ih L x
    · simp only [runAssignedBatch, if_neg h, List.map_cons, List.count_cons]
      by_cases hqx : q.id = x
      · rw [count_invoked_of_mem_ledger rest (q.id :: L) x (hqx ▸ List.mem_cons_self _ _)]
        simp [hqx]
      · have := ih (q.id :: L) x
        simp [hqx]
        omega

theorem delivered_mem_ledger (es : List QueueEntry) :
    ∀ (L : List String) (q : QueueEntry), q ∈ es →
      q.id ∈ (runAssignedBatch L es).1 := by
  induction es with
  | nil => intro L q hq; cases hq
  | cons p rest ih =>
    intro L q hq
    by_cases h : p.id ∈ L
    · rcases List.mem_cons.mp hq with rfl | hmem
      · simpa [runAssignedBatch, h] using
          (mem_ledger_runAssignedBatch rest L q.id).mpr (Or.inl h)
      · simpa [runAssignedBatch, h] using ih L q hmem
    · rcases List.mem_cons.mp hq with rfl | hmem
      · simp only [runAssignedBatch, if_neg h]
        exact (mem_ledger_runAssignedBatch rest (q.id :: L) q.id).mpr
          (Or.inl (List.mem_cons_self _ _))
      · simp only [runAssignedBatch, if_neg h]
        exact ih (p.id :: L) q hmem

theorem mem_ledger_runNotifications (bs : List (Bool × List QueueEntry)) :
    ∀ (L : List String) (x : String),
      x ∈ (runNotifications L bs).1 ↔
        x ∈ L ∨ x ∈ (runNotifications L bs).2.map (fun q => q.id) := by
  induction bs with
  | nil => intro L x; simp [runNotifications]
  | cons p rest ih =>
    intro L x
    obtain ⟨sd, b⟩ := p
    cases sd with
    | true => simpa [runNotifications] using ih L x
    | false =>
      simp only [runNotifications, List.map_append, List.mem_append]
      rw [ih ((runAssignedBatch L b).1) x, mem_ledger_runAssignedBatch b L x]
      tauto

theorem count_notif_of_mem_ledger (bs : List (Bool × List QueueEntry)) :
    ∀ (L : List String) (x : String), x ∈ L →
      List.count x ((runNotifications L bs).2.map (fun q => q.id)) = 0 := by
  induction bs with
  | nil => intro L x _; simp [runNotifications]
  | cons p rest ih =>
    intro L x hx
    obtain ⟨sd, b⟩ := p
    cases sd with
    | true => simpa [runNotifications] using ih L x hx
    | false =>
      simp only [runNotifications, List.map_append, List.count_append]
      rw [count_invoked_of_mem_ledger b L x hx,
        ih ((runAssignedBatch L b).1) x
          ((mem_ledger_runAssignedBatch b L x).mpr (Or.inl hx))]

theorem count_notif_le_one (bs : List (Bool × List QueueEntry)) :
    ∀ (L : List String) (x : String),
      List.count x ((runNotifications L bs).2.map (fun q => q.id)) ≤ 1 := by
  induction bs with
  | nil => intro L x; simp [runNotifications]
  | cons p rest ih =>
    intro L x
    obtain ⟨sd, b⟩ := p
    cases sd with
    | true => simpa [runNotifications] using ih L x
    | false =>
      simp only [runNotifications, List.map_append, List.count_append]
      by_cases hx : x ∈ (runAssignedBatch L b).1
      · rw [count_notif_of_mem_ledger rest ((runAssignedBatch L b).1) x hx]
        simpa using count_invoked_le_one b L x
      · have hnb : x ∉ (runAssignedBatch L b).2.map (fun q => q.id) :=
          fun hmem => hx ((mem_ledger_runAssignedBatch b L x).mpr (Or.inr hmem))
        rw [List.count_eq_zero.mpr hnb]
        simpa using ih ((runAssignedBatch L b).1) x

theorem delivered_mem_ledger_notif (bs : List (Bool × List QueueEntry)) :
    ∀ (L : List String) (b : List QueueEntry) (q : QueueEntry),
      (false, b) ∈ bs → q ∈ b → q.id ∈ (runNotifications L bs).1 := by
  induction bs with
  | nil => intro L b q hb _; cases hb
  | cons p rest ih =>
    intro L b q hb hq
    match p with
    | (true, c) =>
      rcases List.mem_cons.mp hb with heq | hmem
      · cases heq
      · simpa [runNotifications] using ih L b q hmem hq
    | (false, c) =>
      rcases List.mem_cons.mp hb with hEq | hmem
      · have hbc : b = c := by injection hEq
        subst hbc
        have h1 : q.id ∈ (runAssignedBatch L b).1 := delivered_mem_ledger b L q hq
        simp only [runNotifications]
        exact (mem_ledger_runNotifications rest ((runAssignedBatch L b).1) q.id).mpr
          (Or.inl h1)
      · simp only [runNotifications]
        exact ih ((runAssignedBatch L c).1) b q hmem hq

/-! Correspondence between the ledger-level and commit-level runs, and
counting of completion events. -/

theorem runAssignedBatchE_eq (cells : List Cell) (sid kid : String)
    (oid : String → String) (st et : String → Int) (es : List QueueEntry) :
    ∀ L, runAssignedBatchE cells sid kid oid st et L es =
      ((runAssignedBatch L es).1,
       eventsOfInvoked cells sid kid oid st et (runAssignedBatch L es).2) := by
  induction es with
  | nil => intro L; simp [runAssignedBatchE, runAssignedBatch, eventsOfInvoked]
  | cons q rest ih =>
    intro L
    by_cases h : q.id ∈ L
    · simpa [runAssignedBatchE, runAssignedBatch, h] using ih L
    · simp [runAssignedBatchE, runAssignedBatch, h, ih (q.id :: L), eventsOfInvoked]

theorem eventsOfInvoked_append (cells : List Cell) (sid kid : String)
    (oid : String → String) (st et : String → Int) (l1 l2 : List QueueEntry) :
    eventsOfInvoked cells sid kid oid st et (l1 ++ l2) =
      eventsOfInvoked cells sid kid oid st et l1 ++
      eventsOfInvoked cells sid kid oid st et l2 := by
  induction l1 with
  | nil => simp [eventsOfInvoked]
  | cons q rest ih => simp [eventsOfInvoked, ih]

theorem runNotificationsE_eq (cells : List Cell) (sid kid : String)
    (oid : String → String) (st et : String → Int)
    (bs : List (Bool × List QueueEntry)) :
    ∀ L, runNotificationsE cells sid kid oid st et L bs =
      ((runNotifications L bs).1,
       eventsOfInvoked cells sid kid oid st et (runNotifications L bs).2) := by
  induction bs with
  | nil => intro L; simp [runNotificationsE, runNotifications, eventsOfInvoked]
  | cons p rest ih =>
    intro L
    match p with
    | (true, c) => simpa [runNotificationsE, runNotifications] using ih L
    | (false, c) =>
      simp [runNotificationsE, runNotifications, runAssignedBatchE_eq, ih,
        eventsOfInvoked_append]

theorem countCompleted_processExecution (cells : List Cell)
    (sid kid oid : String) (st et : Int) (q : QueueEntry) (x : String) :
    countCompleted x (processExecution cells sid kid oid st et q) =
      if q.id = x then 1 else 0 := by
  cases h : lookupCell cells q.cellId with
  | none =>
    by_cases hqx : q.id = x <;>
      simp [processExecution, h, countCompleted, List.countP_cons, isCompletedFor, hqx]
  | some cell =>
    by_cases hqx : q.id = x <;>
      simp [processExecution, h, countCompleted, List.countP_cons, isCompletedFor, hqx]

theorem countCompleted_append (x : String) (l1 l2 : List Event) :
    countCompleted x (l1 ++ l2) = countCompleted x l1 + countCompleted x l2 := by
  simp [countCompleted, List.countP_append]

theorem countCompleted_eventsOfInvoked (cells : List Cell) (sid kid : String)
    (oid : String → String) (st et : String → Int) (inv : List QueueEntry)
    (x : String) :
    countCompleted x (eventsOfInvoked cells sid kid oid st et inv) =
      List.count x (inv.map (fun q => q.id)) := by
  induction inv with
  | nil => simp [eventsOfInvoked, countCompleted]
  | cons q rest ih =>
    rw [eventsOfInvoked, countCompleted_append, ih,
      countCompleted_processExecution]
    simp only [List.map_cons, List.count_cons]
    by_cases hqx : q.id = x <;> simp [hqx]
    omega

/-! Claim theorems. -/

/-- C1: across any sequence of assigned-view notifications, duplicates
included, the execution computation is invoked at most once per queue-entry
identifier; an identifier already present in the processedExecutions ledger
is always skipped. The invoked list of runNotifications records every
processExecution invocation of the run. -/
theorem dedup_invokes_at_most_once (bs : List (Bool × List QueueEntry))
    (L : List String) (x : String) :
    List.count x ((runNotifications L bs).2.map (fun q => q.id)) ≤ 1 ∧
    (x ∈ L → List.count x ((runNotifications L bs).2.map (fun q => q.id)) = 0) :=
  ⟨count_notif_le_one bs L x, fun hx => count_notif_of_mem_ledger bs L x hx⟩

/-- Witness for dedup_invokes_at_most_once: entry q1, already in the
ledger, is never invoked even when delivered twice. -/
theorem dedup_invokes_at_most_once_witness :
    List.count "q1"
      ((runNotifications ["q1"]
        [(false, [⟨"q1", "c1", "assigned"⟩]),
         (false, [⟨"q1", "c1", "assigned"⟩])]).2.map (fun q => q.id)) = 0 :=
  (dedup_invokes_at_most_once
    [(false, [⟨"q1", "c1", "assigned"⟩]), (false, [⟨"q1", "c1", "assigned"⟩])]
    ["q1"] "q1").2 (by decide)

/-- C2: a queue entry delivered by the assigned-work subscription in any
notification observed outside shutdown gets exactly one executionCompleted
commit, success or error: never zero and never two, no matter how often the
same entry is re-delivered. -/
theorem exactly_one_completion_per_item (cells : List Cell) (sid kid : String)
    (oid : String → String) (st et : String → Int)
    (bs : List (Bool × List QueueEntry)) (x : String)
    (hdeliv : ∃ p ∈ bs, p.1 = false ∧ ∃ q ∈ p.2, q.id = x) :
    countCompleted x (runNotificationsE cells sid kid oid st et [] bs).2 = 1 := by
  rw [runNotificationsE_eq, countCompleted_eventsOfInvoked]
  obtain ⟨⟨sd, b⟩, hp, hfalse, q, hq, rfl⟩ := hdeliv
  have hpb : (false, b) ∈ bs := by
    simp only at hfalse
    exact hfalse ▸ hp
  have hled : q.id ∈ (runNotifications [] bs).1 :=
    delivered_mem_ledger_notif bs [] b q hpb hq
  have hmem : q.id ∈ (runNotifications [] bs).2.map (fun r => r.id) := by
    rcases (mem_ledger_runNotifications bs [] q.id).mp hled with h | h
    · cases h
    · exact h
  have hpos : List.count q.id ((runNotifications [] bs).2.map (fun r => r.id)) ≠ 0 :=
    fun h0 => (List.count_eq_zero.mp h0) hmem
  have hle := count_notif_le_one bs [] q.id
  omega

/-- Witness for exactly_one_completion_per_item: entry q1, delivered twice
before its first execution commits land, still gets exactly one
executionCompleted commit. -/
theorem exactly_one_completion_per_item_witness :
    countCompleted "q1"
      (runNotificationsE [] "s1" "k1" (fun _ => "o1") (fun _ => 0) (fun _ => 5) []
        [(false, [⟨"q1", "c1", "assigned"⟩]),
         (false, [⟨"q1", "c1", "assigned"⟩])]).2 = 1 :=
  exactly_one_completion_per_item [] "s1" "k1" (fun _ => "o1") (fun _ => 0)
    (fun _ => 5)
    [(false, [⟨"q1", "c1", "assigned"⟩]), (false, [⟨"q1", "c1", "assigned"⟩])]
    "q1" (by decide)

/-! Lemmas on the pending-work callback. -/

theorem pending_attempts_len (accept : Event → Bool) (sd : Bool) (sid : String)
    (aks : List KernelSession) (es : List QueueEntry) :
    (pendingOnUpdateRun accept sd sid aks es).attempts.length ≤ 1 := by
  unfold pendingOnUpdateRun
  repeat first | split | simp

theorem pending_absent (accept : Event → Bool) (sd : Bool) (sid : String)
    (aks : List KernelSession) (es : List QueueEntry)
    (h : aks.find? (fun k => k.sessionId == sid) = none) :
    (pendingOnUpdateRun accept sd sid aks es).attempts = [] := by
  unfold pendingOnUpdateRun
  split
  · rfl
  · rw [h]

theorem pending_empty (accept : Event → Bool) (sd : Bool) (sid : String)
    (aks : List KernelSession) :
    (pendingOnUpdateRun accept sd sid aks []).attempts = [] := by
  unfold pendingOnUpdateRun
  repeat first | split | simp_all

theorem pending_head (accept : Event → Bool) (sd : Bool) (sid : String)
    (aks : List KernelSession) (es : List QueueEntry) :
    ∀ e ∈ (pendingOnUpdateRun accept sd sid aks es).attempts,
      ∃ fp, es.head? = some fp ∧ fp.status = "pending" ∧
        e = Event.executionAssigned fp.id sid := by
  unfold pendingOnUpdateRun
  split
  · simp
  · split
    · simp
    · split
      · simp
      · split
        · split <;>
          · intro e he
            refine ⟨_, by assumption, by simp_all, by simp_all⟩
        · simp

theorem pending_surfaced_none (accept : Event → Bool) (sd : Bool) (sid : String)
    (aks : List KernelSession) (es : List QueueEntry) :
    (pendingOnUpdateRun accept sd sid aks es).surfaced = none := by
  unfold pendingOnUpdateRun
  repeat first | split | simp

theorem pending_attempts_indep (accept : Event → Bool) (sd : Bool) (sid : String)
    (aks : List KernelSession) (es : List QueueEntry) :
    (pendingOnUpdateRun accept sd sid aks es).attempts =
      (pendingOnUpdateRun (fun _ => true) sd sid aks es).attempts := by
  unfold pendingOnUpdateRun
  repeat first | split | simp_all

theorem pending_rejected_accepted (accept : Event → Bool) (sd : Bool)
    (sid : String) (aks : List KernelSession) (es : List QueueEntry)
    (h : ∃ e ∈ (pendingOnUpdateRun accept sd sid aks es).attempts,
      accept e = false) :
    (pendingOnUpdateRun accept sd sid aks es).accepted = [] := by
  unfold pendingOnUpdateRun at h ⊢
  repeat first | split | simp_all

/-- C3: one pending-work refresh callback makes at most one assignment
commit attempt; none when this session is missing from the active-kernels
set or the pending sequence is empty; and any attempt binds the id of the
head pending entry to this session's id. -/
theorem claim_attempt_bound (accept : Event → Bool) (sd : Bool) (sid : String)
    (aks : List KernelSession) (es : List QueueEntry) :
    (pendingOnUpdateRun accept sd sid aks es).attempts.length ≤ 1 ∧
    (aks.find? (fun k => k.sessionId == sid) = none →
      (pendingOnUpdateRun accept sd sid aks es).attempts = []) ∧
    (es = [] → (pendingOnUpdateRun accept sd sid aks es).attempts = []) ∧
    (∀ e ∈ (pendingOnUpdateRun accept sd sid aks es).attempts,
      ∃ fp, es.head? = some fp ∧ fp.status = "pending" ∧
        e = Event.executionAssigned fp.id sid) :=
  ⟨pending_attempts_len accept sd sid aks es,
   fun h => pending_absent accept sd sid aks es h,
   fun h => h ▸ pending_empty accept sd sid aks,
   pending_head accept sd sid aks es⟩

/-- Witness for claim_attempt_bound: with only a foreign session active,
the refresh makes no assignment commit attempt. -/
theorem claim_attempt_bound_witness :
    (pendingOnUpdateRun (fun _ => true) false "s1" [⟨"s2", true⟩]
      [⟨"q1", "c1", "pending"⟩]).attempts = [] :=
  (claim_attempt_bound (fun _ => true) false "s1" [⟨"s2", true⟩]
    [⟨"q1", "c1", "pending"⟩]).2.1 (by decide)

/-- C6: a rejected assignment commit is silently absorbed: the callback
surfaces no error, its attempts do not depend on the log's verdict (so in
particular no retry happens within the callback), at most one attempt is
made, and a rejected attempt leaves nothing accepted for that item. -/
theorem assignment_rejection_absorbed (accept : Event → Bool) (sd : Bool)
    (sid : String) (aks : List KernelSession) (es : List QueueEntry) :
    (pendingOnUpdateRun accept sd sid aks es).surfaced = none ∧
    (pendingOnUpdateRun accept sd sid aks es).attempts =
      (pendingOnUpdateRun (fun _ => true) sd sid aks es).attempts ∧
    (pendingOnUpdateRun accept sd sid aks es).attempts.length ≤ 1 ∧
    ((∃ e ∈ (pendingOnUpdateRun accept sd sid aks es).attempts,
        accept e = false) →
      (pendingOnUpdateRun accept sd sid aks es).accepted = []) :=
  ⟨pending_surfaced_none accept sd sid aks es,
   pending_attempts_indep accept sd sid aks es,
   pending_attempts_len accept sd sid aks es,
   fun h => pending_rejected_accepted accept sd sid aks es h⟩

/-- Witness for assignment_rejection_absorbed: a rejected claim of q1 by
session s1 leaves the accepted log empty. -/
theorem assignment_rejection_absorbed_witness :
    (pendingOnUpdateRun (fun _ => false) false "s1" [⟨"s1", true⟩]
      [⟨"q1", "c1", "pending"⟩]).accepted = [] :=
  (assignment_rejection_absorbed (fun _ => false) false "s1" [⟨"s1", true⟩]
    [⟨"q1", "c1", "pending"⟩]).2.2.2 (by decide)

/-! Execution engine lemmas and claim theorems. -/

theorem string_data_append (a b : String) : (a ++ b).data = a.data ++ b.data := by
  cases a; cases b; rfl

/-- C4 counterexample: for an ai cell whose source is "x" the single
output-added payload is the echo-bot message, not the cell's source. -/
theorem happy_path_payload_counterexample :
    lookupCell [⟨"c1", "ai", some "x"⟩] "c1" = some ⟨"c1", "ai", some "x"⟩ ∧
    outputPayloads (processExecution [⟨"c1", "ai", some "x"⟩] "s1" "k1" "o1" 0 5
      ⟨"q1", "c1", "assigned"⟩) = ["Beep boop. You said \"x\""] ∧
    ("Beep boop. You said \"x\"" : String) ≠ "x" := by decide

/-- C4 (amended): for an assigned item whose target cell exists, the
engine commits, in order, exactly one executionStarted with the captured
start timestamp, one cellOutputsCleared, one cellOutputAdded at position 0
carrying the outputData payload computed from the cell, and one
executionCompleted with status success and duration equal to completion
time minus the captured start time, hence nonnegative on a monotone
clock. -/
theorem execution_happy_path (cells : List Cell) (sid kid oid : String)
    (st et : Int) (q : QueueEntry) (cell : Cell)
    (hcell : lookupCell cells q.cellId = some cell) (hclock : st ≤ et) :
    processExecution cells sid kid oid st et q =
      [Event.executionStarted q.id q.cellId sid st,
       Event.cellOutputsCleared cell.id ("kernel-" ++ kid),
       Event.cellOutputAdded oid cell.id "execute_result"
         (outputDataFor cell).2 0,
       Event.executionCompleted q.id q.cellId "success" none et (et - st)] ∧
    outputPayloads (processExecution cells sid kid oid st et q) =
      [(outputDataFor cell).2] ∧
    0 ≤ et - st := by
  have hty : (outputDataFor cell).1 = "execute_result" := by
    by_cases hai : cell.cellType == "ai" <;> simp [outputDataFor, hai]
  refine ⟨?_, ?_, by omega⟩
  · rw [processExecution, hcell]
    simp [hty]
  · rw [processExecution, hcell]
    simp [outputPayloads]

/-- Witness for execution_happy_path: a code cell "print(1)" echoes back
with a 7ms duration. -/
theorem execution_happy_path_witness :
    processExecution [⟨"c1", "code", some "print(1)"⟩] "s1" "k1" "o1" 3 10
      ⟨"q1", "c1", "assigned"⟩ =
      [Event.executionStarted "q1" "c1" "s1" 3,
       Event.cellOutputsCleared "c1" "kernel-k1",
       Event.cellOutputAdded "o1" "c1" "execute_result"
         (outputDataFor ⟨"c1", "code", some "print(1)"⟩).2 0,
       Event.executionCompleted "q1" "c1" "success" none 10 7] ∧
    outputPayloads (processExecution [⟨"c1", "code", some "print(1)"⟩]
      "s1" "k1" "o1" 3 10 ⟨"q1", "c1", "assigned"⟩) =
      [(outputDataFor ⟨"c1", "code", some "print(1)"⟩).2] ∧
    (0 : Int) ≤ 10 - 3 :=
  execution_happy_path [⟨"c1", "code", some "print(1)"⟩] "s1" "k1" "o1" 3 10
    ⟨"q1", "c1", "assigned"⟩ ⟨"c1", "code", some "print(1)"⟩
    (by decide) (by decide)

/-- C5: when the target cell is not found the thrown error is caught and
exactly one executionCompleted commit with status error results, whose
message contains "not found" and whose duration is computed from the
captured start timestamp; no cellOutputAdded commit is made. -/
theorem execution_failure_path (cells : List Cell) (sid kid oid : String)
    (st et : Int) (q : QueueEntry)
    (hcell : lookupCell cells q.cellId = none) (hclock : st ≤ et) :
    processExecution cells sid kid oid st et q =
      [Event.executionCompleted q.id q.cellId "error"
        (some ("Cell " ++ q.cellId ++ " not found")) et (et - st)] ∧
    outputPayloads (processExecution cells sid kid oid st et q) = [] ∧
    (∃ pre post : List Char,
      ("Cell " ++ q.cellId ++ " not found").data =
        pre ++ ("not found").data ++ post) ∧
    0 ≤ et - st := by
  refine ⟨by rw [processExecution, hcell], ?_, ?_, by omega⟩
  · rw [processExecution, hcell]
    simp [outputPayloads]
  · refine ⟨"Cell ".data ++ q.cellId.data ++ [' '], [], ?_⟩
    simp [string_data_append, List.append_assoc]

/-- Witness for execution_failure_path: executing q1 against an empty cell
table commits a single failure completion and no outputs. -/
theorem execution_failure_path_witness :
    processExecution [] "s1" "k1" "o1" 3 10 ⟨"q1", "c1", "assigned"⟩ =
      [Event.executionCompleted "q1" "c1" "error"
        (some ("Cell " ++ "c1" ++ " not found")) 10 (10 - 3)] ∧
    outputPayloads (processExecution [] "s1" "k1" "o1" 3 10
      ⟨"q1", "c1", "assigned"⟩) = [] ∧
    (∃ pre post : List Char,
      ("Cell " ++ "c1" ++ " not found").data =
        pre ++ ("not found").data ++ post) ∧
    (0 : Int) ≤ 10 - 3 :=
  execution_failure_path [] "s1" "k1" "o1" 3 10 ⟨"q1", "c1", "assigned"⟩
    (by decide) (by decide)

/-! Shutdown lemmas and claim theorems. -/

theorem shutdown_flag_set (ok : Bool) (sid : String) (s : AgentState) :
    (shutdown ok sid s).1.isShuttingDown = true := by
  unfold shutdown
  split
  next h => exact h
  next h => rfl

theorem shutdown_noop (ok : Bool) (sid : String) (s : AgentState)
    (h : s.isShuttingDown = true) : shutdown ok sid s = (s, []) := by
  simp [shutdown, h]

theorem shutdownTimes_of_shutting (ok : Bool) (sid : String) :
    ∀ (n : Nat) (s : AgentState), s.isShuttingDown = true →
      shutdownTimes ok sid n s = (s, []) := by
  intro n
  induction n with
  | zero => intro s _; rfl
  | succ m ih =>
    intro s h
    simp [shutdownTimes, shutdown_noop ok sid s h, ih s h]

/-- C7: invoking the shutdown trigger n times, for any n of at least one,
performs the teardown exactly once: the final state and the concatenation
of every step performed across the n invocations equal those of a single
invocation, every invocation after the first contributing nothing. -/
theorem shutdown_idempotent (ok : Bool) (sid : String) (s : AgentState)
    (n : Nat) (h : 1 ≤ n) :
    shutdownTimes ok sid n s = shutdown ok sid s := by
  obtain ⟨m, rfl⟩ : ∃ m, n = m + 1 := ⟨n - 1, by omega⟩
  simp only [shutdownTimes]
  rw [shutdownTimes_of_shutting ok sid m (shutdown ok sid s).1
    (shutdown_flag_set ok sid s)]
  simp

/-- Witness for shutdown_idempotent: three triggers in a row equal one. -/
theorem shutdown_idempotent_witness :
    shutdownTimes true "s1" 3 ⟨false, true, true, true, true, true, none⟩ =
      shutdown true "s1" ⟨false, true, true, true, true, true, none⟩ :=
  shutdown_idempotent true "s1" ⟨false, true, true, true, true, true, none⟩ 3
    (by decide)

/-- C8: a first shutdown invocation performs, in order: stop the heartbeat
timer, release the three subscriptions, attempt the session-terminated
commit, close the store and exit with status 0; a failed termination
commit is merely logged, after which the store is still closed and the
process still exits with status 0. -/
theorem shutdown_sequence (sid : String) (s : AgentState)
    (h : s.isShuttingDown = false) :
    (shutdown true sid s).2 =
      [TeardownStep.stopHeartbeat, TeardownStep.unsubAssigned,
       TeardownStep.unsubPending, TeardownStep.unsubActive,
       TeardownStep.commitTerminated sid "shutdown",
       TeardownStep.closeStore, TeardownStep.exitProcess 0] ∧
    (shutdown false sid s).2 =
      [TeardownStep.stopHeartbeat, TeardownStep.unsubAssigned,
       TeardownStep.unsubPending, TeardownStep.unsubActive,
       TeardownStep.commitTerminated sid "shutdown",
       TeardownStep.logTerminateFailed,
       TeardownStep.closeStore, TeardownStep.exitProcess 0] ∧
    (shutdown false sid s).1.storeOpen = false ∧
    (shutdown false sid s).1.exited = some 0 ∧
    (shutdown false sid s).1.heartbeatActive = false ∧
    (shutdown false sid s).1.assignedSub = false ∧
    (shutdown false sid s).1.pendingSub = false ∧
    (shutdown false sid s).1.activeSub = false := by
  simp [shutdown, h]

/-- Witness for shutdown_sequence on the freshly started agent state. -/
theorem shutdown_sequence_witness :
    (shutdown true "s1" ⟨false, true, true, true, true, true, none⟩).2 =
      [TeardownStep.stopHeartbeat, TeardownStep.unsubAssigned,
       TeardownStep.unsubPending, TeardownStep.unsubActive,
       TeardownStep.commitTerminated "s1" "shutdown",
       TeardownStep.closeStore, TeardownStep.exitProcess 0] :=
  (shutdown_sequence "s1" ⟨false, true, true, true, true, true, none⟩
    (by decide)).1

/-! Startup and output payload claim theorems. -/

/-- C9: startup exits with status 1 committing nothing when the auth token
is falsy, the notebook id is falsy, or the registration commit fails; with
both present and both startup commits succeeding, registration is
immediately followed by a heartbeat commit and no work-claiming or
work-executing event is committed during startup. -/
theorem startup_validation (authToken notebookId : Option String)
    (sid kid : String) (t : Int) (rok hok : Bool) :
    ((falsyConfig authToken = true ∨ falsyConfig notebookId = true ∨
        rok = false) →
      startup authToken notebookId sid kid t rok hok =
        StartupResult.exited 1 []) ∧
    (falsyConfig authToken = false → falsyConfig notebookId = false →
      rok = true → hok = true →
      startup authToken notebookId sid kid t rok hok =
        StartupResult.running
          [registrationEvent sid kid, startupHeartbeatEvent sid t] ∧
      (∀ e ∈ [registrationEvent sid kid, startupHeartbeatEvent sid t],
        isWorkEvent e = false)) := by
  constructor
  · rintro (h | h | h) <;> simp [startup, h]
  · intro h1 h2 h3 h4
    refine ⟨by simp [startup, h1, h2, h3, h4], ?_⟩
    simp [registrationEvent, startupHeartbeatEvent, isWorkEvent]

/-- Witness for startup_validation: a missing auth token exits with
status 1 before anything is committed. -/
theorem startup_validation_witness :
    startup none (some "nb") "s1" "k1" 0 true true =
      StartupResult.exited 1 [] :=
  (startup_validation none (some "nb") "s1" "k1" 0 true true).1
    (Or.inl (by decide))

/-- C10: the committed output payload depends only on the target cell's
type and source; the output type is always execute_result; an ai cell
yields the echo-bot message quoting the source; every other cell type
echoes the source back; a null source collapses to the empty string. -/
theorem output_payload_rule (cell : Cell) :
    (outputDataFor cell).1 = "execute_result" ∧
    (cell.cellType = "ai" →
      (outputDataFor cell).2 =
        "Beep boop. You said \"" ++ jsOrEmpty cell.source ++ "\"") ∧
    (cell.cellType ≠ "ai" → (outputDataFor cell).2 = jsOrEmpty cell.source) ∧
    jsOrEmpty none = "" ∧
    (∀ id1 id2 ct src,
      outputDataFor ⟨id1, ct, src⟩ = outputDataFor ⟨id2, ct, src⟩) := by
  refine ⟨?_, ?_, ?_, rfl, fun id1 id2 ct src => rfl⟩
  · by_cases hai : cell.cellType == "ai" <;> simp [outputDataFor, hai]
  · intro hai; simp [outputDataFor, hai]
  · intro hai; simp [outputDataFor, hai]

/-- Witness for output_payload_rule: an ai cell with source "hi" gets the
echo-bot payload. -/
theorem output_payload_rule_witness :
    (outputDataFor ⟨"c1", "ai", some "hi"⟩).2 =
      "Beep boop. You said \"" ++ jsOrEmpty (some "hi") ++ "\"" :=
  (output_payload_rule ⟨"c1", "ai", some "hi"⟩).2.1 rfl

end EchoAgent
